import Mathlib

/-!
# Verification of the micro data cleaner analysis pipeline

Shallow embedding of `src/micro_cleaner.py` (`analyze_file`): a table is a
header (list of column names) together with a list of rows, each row a list
of cells; a cell is a tagged union over integer, float, string, boolean and
null.  All pandas operations the analysis uses (`isnull`, `duplicated`,
`drop_duplicates`, `dropna`, `map(type).unique()`, `quantile` with linear
interpolation, IQR outlier masks) are embedded as executable functions on
this model, with floats modelled by exact rationals.
-/

namespace MicroCleaner

/-- A cell of the table: one of integer, float, string, boolean, null.
Floats are modelled as exact rationals. -/
inductive Cell where
  | int (i : ℤ)
  | float (q : ℚ)
  | str (s : String)
  | bool (b : Bool)
  | null
deriving DecidableEq, Repr

/-- A row is the list of its cells, in column order. -/
abbrev Row := List Cell

/-- A table: header of column names plus rows (`df` in the source). -/
structure Table where
  header : List String
  rows : List Row
deriving DecidableEq, Repr

/-- Whether a cell is missing (`pd.isnull`). -/
def Cell.isNull : Cell → Bool
  | .null => true
  | _ => false

/-- The runtime kind name of a cell, as Python's `type(x).__name__` reports
it for the values a cell can hold. -/
def Cell.kindName : Cell → String
  | .int _ => "int"
  | .float _ => "float"
  | .str _ => "str"
  | .bool _ => "bool"
  | .null => "NoneType"

/-- Whether a cell holds a numeric value (`np.number` excludes bools). -/
def Cell.isNum : Cell → Bool
  | .int _ => true
  | .float _ => true
  | _ => false

/-- The numeric value of a cell (0 for non-numeric cells, never used there). -/
def Cell.numVal : Cell → ℚ
  | .int i => (i : ℚ)
  | .float q => q
  | _ => 0

/-- The cells of column `c`, aligned by row index (`df[col]`).  A name not
in the header, or a row too short, reads as null. -/
def colCells (t : Table) (c : String) : List Cell :=
  let idx := t.header.indexOf c
  t.rows.map (fun r => r.getD idx Cell.null)

/-- The non-null cells of a column (`df[col].dropna()`). -/
def nonNullCells (cells : List Cell) : List Cell :=
  cells.filter (fun c => !c.isNull)

/-- Columns having at least one null cell, in column order
(`df.columns[df.isnull().any()]`, line 88). -/
def missingCols (t : Table) : List String :=
  t.header.filter (fun c => (colCells t c).any Cell.isNull)

/-- Null-cell count per missing column (line 89). -/
def missingCounts (t : Table) : List (String × ℕ) :=
  (missingCols t).map (fun c => (c, (colCells t c).countP Cell.isNull))

/-- `df.duplicated()` (keep='first'): a row is flagged when an identical row
(null equal to null) was already seen.  `seen` accumulates earlier rows. -/
def dupMaskAux (seen : List Row) : List Row → List Bool
  | [] => []
  | r :: rs => decide (r ∈ seen) :: dupMaskAux (r :: seen) rs

/-- The duplicate mask of the table's rows (line 92). -/
def duplicatedMask (rows : List Row) : List Bool :=
  dupMaskAux [] rows

/-- `df.drop_duplicates()`: keep only first occurrences. -/
def dropDuplicatesAux (seen : List Row) : List Row → List Row
  | [] => []
  | r :: rs =>
    if r ∈ seen then dropDuplicatesAux (r :: seen) rs
    else r :: dropDuplicatesAux (r :: seen) rs

/-- Rows after collapsing exact duplicates, first occurrence kept (line 122). -/
def dropDuplicates (rows : List Row) : List Row :=
  dropDuplicatesAux [] rows

/-- Number of flagged duplicate rows (`len(duplicate_rows)`, line 95). -/
def duplicateCount (rows : List Row) : ℕ :=
  (duplicatedMask rows).count true

/-- Original row indices of flagged duplicates, counting from `i`. -/
def duplicateIndicesAux (seen : List Row) (i : ℕ) : List Row → List ℕ
  | [] => []
  | r :: rs =>
    if r ∈ seen then i :: duplicateIndicesAux (r :: seen) (i + 1) rs
    else duplicateIndicesAux (r :: seen) (i + 1) rs

/-- `duplicate_rows.index.tolist()` (line 94): original indices of flagged
rows, in ascending order. -/
def duplicateIndices (rows : List Row) : List ℕ :=
  duplicateIndicesAux [] 0 rows

/-- Unique-row count (`len(df.drop_duplicates())`, line 122). -/
def uniqueCount (rows : List Row) : ℕ :=
  (dropDuplicates rows).length

/-- `df.dropna()`: drop every row containing at least one null cell. -/
def dropna (rows : List Row) : List Row :=
  rows.filter (fun r => r.all (fun c => !c.isNull))

/-- The cleaned table: `df.drop_duplicates().dropna()` (line 126). -/
def cleanTable (t : Table) : Table :=
  ⟨t.header, dropna (dropDuplicates t.rows)⟩

/-- Python's `round(x, 2)` on the exact value: round half to even at the
second decimal place. -/
def pyRound2 (x : ℚ) : ℚ :=
  let y := x * 100
  let f := ⌊y⌋
  let r := y - (f : ℚ)
  let n : ℤ :=
    if r < 1/2 then f
    else if 1/2 < r then f + 1
    else if f % 2 = 0 then f else f + 1
  (n : ℚ) / 100

/-- `round((unique_rows / total_rows) * 100, 2) if total_rows > 0 else 0`
(line 123). -/
def worthyRatio (t : Table) : ℚ :=
  if 0 < t.rows.length then
    pyRound2 (((uniqueCount t.rows : ℚ) / (t.rows.length : ℚ)) * 100)
  else 0

/-- Append a value to an accumulator unless already present. -/
def addIfNew (acc : List String) (x : String) : List String :=
  if x ∈ acc then acc else acc ++ [x]

/-- Distinct elements in first-seen order (`Series.unique()`). -/
def distinctFirstSeen (l : List String) : List String :=
  l.foldl addIfNew []

/-- The mixed-type entry of one column (body of the loop at lines 99-104):
the distinct runtime kind names of its non-null cells in first-seen order,
when more than one kind is present. -/
def mixedEntry (t : Table) (c : String) : Option (String × List String) :=
  let nn := nonNullCells (colCells t c)
  if 0 < nn.length then
    let kinds := distinctFirstSeen (nn.map Cell.kindName)
    if 1 < kinds.length then some (c, kinds) else none
  else none

/-- Mixed-type census (lines 98-104): the columns flagged by `mixedEntry`,
in column order. -/
def mixedTypes (t : Table) : List (String × List String) :=
  t.header.filterMap (mixedEntry t)

/-- Insert into a sorted list of rationals, keeping ascending order. -/
def insertSorted (x : ℚ) : List ℚ → List ℚ
  | [] => [x]
  | y :: ys => if x ≤ y then x :: y :: ys else y :: insertSorted x ys

/-- Ascending sort of a list of rationals. -/
def sortRat (l : List ℚ) : List ℚ :=
  l.foldr insertSorted []

/-- `Series.quantile(q)` with the default linear interpolation: on the
sorted values `v` of length `n`, position `h = q*(n-1)`, result
`v[⌊h⌋] + (h - ⌊h⌋) * (v[⌊h⌋+1] - v[⌊h⌋])`. -/
def quantileLinear (l : List ℚ) (q : ℚ) : ℚ :=
  let s := sortRat l
  let n := s.length
  if n = 0 then 0
  else
    let h : ℚ := q * ((n : ℚ) - 1)
    let i : ℕ := (⌊h⌋).toNat
    let lo := s.getD i 0
    let hi := s.getD (i + 1) lo
    lo + (h - (i : ℚ)) * (hi - lo)

/-- Whether a column carries a numeric dtype
(`df.select_dtypes(include=[np.number])`): every cell numeric or null. -/
def isNumericCol (cells : List Cell) : Bool :=
  cells.all (fun c => c.isNum || c.isNull)

/-- The non-null numeric values of a column. -/
def nonNullVals (cells : List Cell) : List ℚ :=
  (nonNullCells cells).map Cell.numVal

/-- Cells of the column outside `[lower, upper]`
(`df[(df[col] < lower) | (df[col] > upper)][col]`): comparisons with null
are false, so null cells are never flagged. -/
def outlierCountCol (cells : List Cell) (lower upper : ℚ) : ℕ :=
  cells.countP (fun c =>
    !c.isNull && (decide (c.numVal < lower) || decide (upper < c.numVal)))

/-- Q1 of a column's non-null values. -/
def colQ1 (cells : List Cell) : ℚ := quantileLinear (nonNullVals cells) (1/4)

/-- Q3 of a column's non-null values. -/
def colQ3 (cells : List Cell) : ℚ := quantileLinear (nonNullVals cells) (3/4)

/-- The outlier entry of one numeric column (body of the loop at lines
109-119): when the column has non-null values, IQR > 0 and at least one cell
lies outside `[Q1 - 1.5*IQR, Q3 + 1.5*IQR]`, the count of such cells. -/
def outlierEntry (t : Table) (c : String) : Option (String × ℕ) :=
  let cells := colCells t c
  if 0 < (nonNullVals cells).length then
    let q1 := colQ1 cells
    let q3 := colQ3 cells
    let iqr := q3 - q1
    if 0 < iqr then
      let lower := q1 - 3/2 * iqr
      let upper := q3 + 3/2 * iqr
      let n := outlierCountCol cells lower upper
      if 0 < n then some (c, n) else none
    else none
  else none

/-- Outlier census (lines 107-119): the numeric columns flagged by
`outlierEntry`, in column order. -/
def outlierCensus (t : Table) : List (String × ℕ) :=
  (t.header.filter (fun c => isNumericCol (colCells t c))).filterMap
    (outlierEntry t)

/-!
## The run model

`analyze_file` after the path check: the load step's outcome (already
parsed, or a typed load failure) is the input; the ambient context carries
the timestamp, the output directory and whether each of the two file writes
would succeed.  The run yields either a typed error or the analysis output,
paired with the list of file paths whose write was attempted.
-/

/-- Fatal load failures of the pipeline (spec taxonomy, section 7). -/
inductive RunError where
  | notFound
  | emptyInput
  | malformedInput
deriving DecidableEq, Repr

/-- Ambient context of one run: timestamp string used in the report file
name, target directory, and whether each write would succeed. -/
structure Ctx where
  timestamp : String
  outputDir : String
  cleanedWriteOk : Bool
  reportWriteOk : Bool
deriving DecidableEq, Repr

/-- The analysis output of a successful run (the report's content and the
returned path). -/
structure RunOutput where
  totalRows : ℕ
  totalCols : ℕ
  missingCols : List String
  missingCounts : List (String × ℕ)
  duplicateCount : ℕ
  duplicateIndices : List ℕ
  mixedTypes : List (String × List String)
  outliers : List (String × ℕ)
  uniqueRows : ℕ
  worthyRatio : ℚ
  cleanedTable : Table
  cleanedRows : ℕ
  cleanedFilePath : String
  reportPath : String
  warnings : List String
deriving DecidableEq, Repr

/-- `analyze_file` from line 71 on: load outcome in, analysis out, paired
with the list of file paths whose write was attempted (lines 138-147 write
the cleaned table, lines 218-222 the report; write failures are demoted to
warnings, and a failed cleaned-table write replaces the shown path with a
placeholder while the report path is returned unchanged, line 225). -/
def analyzeFileRun (load : Except RunError Table) (baseName : String)
    (autoclean : Bool) (ctx : Ctx) :
    Except RunError RunOutput × List String :=
  match load with
  | .error e => (.error e, [])
  | .ok df =>
    if df.rows.length = 0 then (.error .emptyInput, [])
    else
      let cleanedDf := cleanTable df
      let cleanedRows := cleanedDf.rows.length
      let cleanedPath := ctx.outputDir ++ "/" ++ baseName ++ "_cleaned.csv"
      let cleanedState : String × List String × List String :=
        if autoclean && 0 < cleanedRows then
          if ctx.cleanedWriteOk then (cleanedPath, [cleanedPath], [])
          else ("Not saved (error occurred)", [cleanedPath],
                ["Warning: Could not save cleaned file"])
        else if cleanedRows = 0 then ("Not saved (no data after cleaning)", [], [])
        else ("Skipped", [], [])
      let reportPath := ctx.outputDir ++ "/clean_report_" ++ baseName ++ "_"
        ++ ctx.timestamp ++ ".txt"
      let reportWarn : List String :=
        if ctx.reportWriteOk then [] else ["Warning: Could not save report file"]
      (.ok
        { totalRows := df.rows.length
          totalCols := df.header.length
          missingCols := missingCols df
          missingCounts := missingCounts df
          duplicateCount := duplicateCount df.rows
          duplicateIndices := duplicateIndices df.rows
          mixedTypes := mixedTypes df
          outliers := outlierCensus df
          uniqueRows := uniqueCount df.rows
          worthyRatio := worthyRatio df
          cleanedTable := cleanedDf
          cleanedRows := cleanedRows
          cleanedFilePath := cleanedState.1
          reportPath := reportPath
          warnings := cleanedState.2.2 ++ reportWarn },
       cleanedState.2.1 ++ [reportPath])

/-- Whether a run result is a success. -/
def runOk : Except RunError RunOutput → Bool
  | .ok _ => true
  | .error _ => false

/-- The warnings of a run result (empty on a fatal error). -/
def outWarnings : Except RunError RunOutput → List String
  | .ok o => o.warnings
  | .error _ => []

/-- The shown cleaned-dataset path of a run result. -/
def outCleanedPath : Except RunError RunOutput → String
  | .ok o => o.cleanedFilePath
  | .error _ => ""

/-- The report path of a run result (the value `analyze_file` returns). -/
def outReportPath : Except RunError RunOutput → String
  | .ok o => o.reportPath
  | .error _ => ""

/-- The cleaned-row count of a run result. -/
def outCleanedRows : Except RunError RunOutput → ℕ
  | .ok o => o.cleanedRows
  | .error _ => 0

/-- The cleaned table of a run result. -/
def outCleanedTable : Except RunError RunOutput → Table
  | .ok o => o.cleanedTable
  | .error _ => ⟨[], []⟩

/-!
## Concrete scenario tables
-/

/-- Scenario A: `a,b` header with rows `1,2`, `1,2`, `3,<null>`. -/
def tableA : Table :=
  ⟨["a", "b"], [[.int 1, .int 2], [.int 1, .int 2], [.int 3, .null]]⟩

/-- A context where both writes succeed. -/
def ctxOk : Ctx := ⟨"T", "out", true, true⟩

/-- Scenario B: one numeric column `x` holding `[10,12,11,13,500]`. -/
def tableB : Table :=
  ⟨["x"], [[.int 10], [.int 12], [.int 11], [.int 13], [.int 500]]⟩

/-- Scenario D: one column `d` holding `["1", 2, "3"]`. -/
def tableD : Table :=
  ⟨["d"], [[.str "1"], [.int 2], [.str "3"]]⟩

/-- A numeric column `y` holding `[1,2,3,4]`: IQR is 3.25 − 1.75 > 0 and
every value lies within the bounds. -/
def tableE : Table :=
  ⟨["y"], [[.int 1], [.int 2], [.int 3], [.int 4]]⟩

/-!
## Lemmas on the duplicate machinery
-/

lemma dupMaskAux_length (rows : List Row) :
    ∀ seen : List Row, (dupMaskAux seen rows).length = rows.length := by
  induction rows with
  | nil => intro seen; rfl
  | cons r rs ih => intro seen; simp [dupMaskAux, ih (r :: seen)]

lemma dupMaskAux_getD (rows : List Row) :
    ∀ (seen : List Row) (i : ℕ), i < rows.length →
      ((dupMaskAux seen rows).getD i false = true ↔
        rows.getD i [] ∈ seen ∨ ∃ j, j < i ∧ rows.getD j [] = rows.getD i []) := by
  induction rows with
  | nil => intro seen i hi; simp at hi
  | cons r rs ih =>
    intro seen i hi
    cases i with
    | zero => simp [dupMaskAux]
    | succ i =>
      have hi' : i < rs.length := Nat.lt_of_succ_lt_succ hi
      simp only [dupMaskAux, List.getD_cons_succ]
      rw [ih (r :: seen) i hi']
      constructor
      · rintro (hmem | ⟨j, hj, he⟩)
        · rcases List.mem_cons.mp hmem with he | hmem'
          · exact Or.inr ⟨0, Nat.succ_pos i, by simpa using he.symm⟩
          · exact Or.inl hmem'
        · exact Or.inr ⟨j + 1, Nat.succ_lt_succ hj, by simpa using he⟩
      · rintro (hmem | ⟨j, hj, he⟩)
        · exact Or.inl (List.mem_cons_of_mem _ hmem)
        · cases j with
          | zero =>
            exact Or.inl (List.mem_cons.mpr (Or.inl (by simpa using he.symm)))
          | succ j =>
            exact Or.inr ⟨j, Nat.lt_of_succ_lt_succ hj, by simpa using he⟩

lemma dropDupAux_length_add (rows : List Row) :
    ∀ seen : List Row,
      (dropDuplicatesAux seen rows).length + (dupMaskAux seen rows).count true
        = rows.length := by
  induction rows with
  | nil => intro seen; rfl
  | cons r rs ih =>
    intro seen
    by_cases hmem : r ∈ seen
    · have := ih (r :: seen)
      simp [dropDuplicatesAux, dupMaskAux, hmem, List.count_cons]
      omega
    · have := ih (r :: seen)
      simp [dropDuplicatesAux, dupMaskAux, hmem, List.count_cons]
      omega

lemma uniqueCount_add_duplicateCount (rows : List Row) :
    uniqueCount rows + duplicateCount rows = rows.length :=
  dropDupAux_length_add rows []

lemma uniqueCount_le_length (rows : List Row) :
    uniqueCount rows ≤ rows.length := by
  have := uniqueCount_add_duplicateCount rows
  omega

lemma dupMaskAux_of_nodup (rows : List Row) :
    ∀ seen : List Row, rows.Nodup → (∀ x ∈ rows, x ∉ seen) →
      dupMaskAux seen rows = List.replicate rows.length false := by
  induction rows with
  | nil => intro seen _ _; rfl
  | cons r rs ih =>
    intro seen hnd hdisj
    have hr : r ∉ seen := hdisj r (List.mem_cons_self r rs)
    have hrs : ∀ x ∈ rs, x ∉ r :: seen := by
      intro x hx
      have hxr : x ≠ r := by
        intro he
        exact (List.nodup_cons.mp hnd).1 (he ▸ hx)
      have hxs : x ∉ seen := hdisj x (List.mem_cons_of_mem _ hx)
      simp [List.mem_cons, hxr, hxs]
    have := ih (r :: seen) (List.nodup_cons.mp hnd).2 hrs
    simp [dupMaskAux, hr, this, List.replicate_succ]

lemma dupMaskAux_append (l : List Row) :
    ∀ (seen : List Row) (r : Row),
      dupMaskAux seen (l ++ [r]) = dupMaskAux seen l ++ [decide (r ∈ l ∨ r ∈ seen)] := by
  induction l with
  | nil =>
    intro seen r
    simp only [List.nil_append, dupMaskAux]
    have : decide (r ∈ seen) = decide (r ∈ ([] : List Row) ∨ r ∈ seen) :=
      decide_eq_decide.mpr (by simp)
    rw [this]
  | cons a l' ih =>
    intro seen r
    have hd : decide (r ∈ l' ∨ r ∈ a :: seen) = decide (r ∈ a :: l' ∨ r ∈ seen) :=
      decide_eq_decide.mpr (by simp [List.mem_cons]; tauto)
    show decide (a ∈ seen) :: dupMaskAux (a :: seen) (l' ++ [r]) = _
    rw [ih (a :: seen) r, hd]
    show _ = (decide (a ∈ seen) :: dupMaskAux (a :: seen) l')
      ++ [decide (r ∈ a :: l' ∨ r ∈ seen)]
    rw [List.cons_append]

lemma duplicateIndicesAux_ge (rows : List Row) :
    ∀ (seen : List Row) (i x : ℕ), x ∈ duplicateIndicesAux seen i rows → i ≤ x := by
  induction rows with
  | nil => intro seen i x hx; simp [duplicateIndicesAux] at hx
  | cons r rs ih =>
    intro seen i x hx
    by_cases hmem : r ∈ seen
    · simp [duplicateIndicesAux, hmem] at hx
      rcases hx with he | hx
      · omega
      · have := ih (r :: seen) (i + 1) x hx; omega
    · simp [duplicateIndicesAux, hmem] at hx
      have := ih (r :: seen) (i + 1) x hx; omega

lemma duplicateIndicesAux_sorted (rows : List Row) :
    ∀ (seen : List Row) (i : ℕ),
      List.Sorted (· < ·) (duplicateIndicesAux seen i rows) := by
  induction rows with
  | nil => intro seen i; simp [duplicateIndicesAux]
  | cons r rs ih =>
    intro seen i
    by_cases hmem : r ∈ seen
    · simp only [duplicateIndicesAux, if_pos hmem]
      rw [List.sorted_cons]
      refine ⟨fun b hb => ?_, ih (r :: seen) (i + 1)⟩
      have := duplicateIndicesAux_ge rs (r :: seen) (i + 1) b hb
      omega
    · simp only [duplicateIndicesAux, if_neg hmem]
      exact ih (r :: seen) (i + 1)

lemma duplicateIndicesAux_mem (rows : List Row) :
    ∀ (seen : List Row) (k j : ℕ),
      j ∈ duplicateIndicesAux seen k rows ↔
        ∃ d, d < rows.length ∧ j = k + d ∧
          (dupMaskAux seen rows).getD d false = true := by
  induction rows with
  | nil => intro seen k j; simp [duplicateIndicesAux, dupMaskAux]
  | cons r rs ih =>
    intro seen k j
    by_cases hmem : r ∈ seen
    · simp only [duplicateIndicesAux, if_pos hmem, List.mem_cons, List.length_cons,
        ih (r :: seen) (k + 1)]
      constructor
      · rintro (he | ⟨d, hd, he, hm⟩)
        · exact ⟨0, Nat.succ_pos _, by omega, by simp [dupMaskAux, hmem]⟩
        · exact ⟨d + 1, by omega, by omega, by simpa [dupMaskAux] using hm⟩
      · rintro ⟨d, hd, he, hm⟩
        cases d with
        | zero => exact Or.inl (by omega)
        | succ d =>
          exact Or.inr ⟨d, by omega, by omega, by simpa [dupMaskAux] using hm⟩
    · simp only [duplicateIndicesAux, if_neg hmem, List.length_cons,
        ih (r :: seen) (k + 1)]
      constructor
      · rintro ⟨d, hd, he, hm⟩
        exact ⟨d + 1, by omega, by omega, by simpa [dupMaskAux] using hm⟩
      · rintro ⟨d, hd, he, hm⟩
        cases d with
        | zero =>
          simp [dupMaskAux, hmem] at hm
        | succ d =>
          exact ⟨d, by omega, by omega, by simpa [dupMaskAux] using hm⟩

lemma duplicateIndices_mem (rows : List Row) (j : ℕ) :
    j ∈ duplicateIndices rows ↔
      j < rows.length ∧ (duplicatedMask rows).getD j false = true := by
  rw [duplicateIndices, duplicateIndicesAux_mem rows [] 0 j]
  constructor
  · rintro ⟨d, hd, he, hm⟩
    have : j = d := by omega
    exact ⟨this ▸ hd, this ▸ hm⟩
  · rintro ⟨hj, hm⟩
    exact ⟨j, hj, by omega, hm⟩

/-!
## Lemmas on the mixed-type census
-/

lemma foldl_addIfNew_toFinset (l : List String) :
    ∀ acc : List String,
      (l.foldl addIfNew acc).toFinset = acc.toFinset ∪ l.toFinset := by
  induction l with
  | nil => intro acc; simp
  | cons x l' ih =>
    intro acc
    have hx : (addIfNew acc x).toFinset = acc.toFinset ∪ {x} := by
      by_cases hmem : x ∈ acc
      · simp [addIfNew, hmem]
      · simp [addIfNew, hmem]
    simp only [List.foldl_cons, ih (addIfNew acc x), hx, List.toFinset_cons]
    ext y; simp; tauto

lemma foldl_addIfNew_nodup (l : List String) :
    ∀ acc : List String, acc.Nodup → (l.foldl addIfNew acc).Nodup := by
  induction l with
  | nil => intro acc h; exact h
  | cons x l' ih =>
    intro acc h
    refine ih (addIfNew acc x) ?_
    by_cases hmem : x ∈ acc
    · simpa [addIfNew, hmem] using h
    · simp [addIfNew, hmem, List.nodup_append, h]

lemma distinctFirstSeen_length (l : List String) :
    (distinctFirstSeen l).length = l.toFinset.card := by
  have h1 : (distinctFirstSeen l).toFinset = l.toFinset := by
    simpa using foldl_addIfNew_toFinset l []
  have h2 : (distinctFirstSeen l).Nodup := foldl_addIfNew_nodup l [] (by simp)
  rw [← h1, List.toFinset_card_of_nodup h2]

lemma mixedEntry_fst (t : Table) (a : String) (c : String) (ks : List String)
    (h : mixedEntry t a = some (c, ks)) : a = c := by
  simp only [mixedEntry] at h
  split at h
  · split at h
    · exact congrArg Prod.fst (Option.some.inj h)
    · simp at h
  · simp at h

lemma mixedEntry_iff (t : Table) (c : String) :
    (∃ ks, mixedEntry t c = some (c, ks)) ↔
      1 < ((nonNullCells (colCells t c)).map Cell.kindName).toFinset.card := by
  rw [← distinctFirstSeen_length]
  simp only [mixedEntry]
  by_cases hlen : 0 < (nonNullCells (colCells t c)).length
  · simp only [if_pos hlen]
    by_cases hk :
        1 < (distinctFirstSeen
              ((nonNullCells (colCells t c)).map Cell.kindName)).length
    · simp [hk]
    · simp [hk]
  · simp only [if_neg hlen]
    have hnil : nonNullCells (colCells t c) = [] := List.length_eq_zero.mp (by omega)
    simp [hnil, distinctFirstSeen]

/-!
## Lemmas on the outlier census
-/

lemma outlierEntry_eq_some (t : Table) (a : String) (c : String) (n : ℕ)
    (h : outlierEntry t a = some (c, n)) :
    a = c ∧ 0 < colQ3 (colCells t a) - colQ1 (colCells t a) ∧ 0 < n ∧
      n = outlierCountCol (colCells t a)
        (colQ1 (colCells t a)
          - 3/2 * (colQ3 (colCells t a) - colQ1 (colCells t a)))
        (colQ3 (colCells t a)
          + 3/2 * (colQ3 (colCells t a) - colQ1 (colCells t a))) := by
  simp only [outlierEntry] at h
  split at h
  · split at h
    · split at h
      · rename_i hlen hiqr hn
        have he := Option.some.inj h
        have hc : a = c := congrArg Prod.fst he
        have hv := congrArg Prod.snd he
        dsimp only at hv
        exact ⟨hc, hiqr, hv ▸ hn, hv.symm⟩
      · simp at h
    · simp at h
  · simp at h

lemma outlierCensus_mem (t : Table) (c : String) (n : ℕ)
    (h : (c, n) ∈ outlierCensus t) :
    isNumericCol (colCells t c) = true ∧
      0 < colQ3 (colCells t c) - colQ1 (colCells t c) ∧ 0 < n ∧
      n = outlierCountCol (colCells t c)
        (colQ1 (colCells t c)
          - 3/2 * (colQ3 (colCells t c) - colQ1 (colCells t c)))
        (colQ3 (colCells t c)
          + 3/2 * (colQ3 (colCells t c) - colQ1 (colCells t c))) := by
  rcases List.mem_filterMap.mp h with ⟨a, ha, he⟩
  rcases outlierEntry_eq_some t a c n he with ⟨rfl, hiqr, hn, hv⟩
  exact ⟨(List.mem_filter.mp ha).2, hiqr, hn, hv⟩

/-!
## Lemmas on the worthy-data ratio
-/

lemma int_le_9999_of_cast_le (f : ℤ) (h : (f : ℚ) ≤ 19999/2) : f ≤ 9999 := by
  have h2 : ((2 * f : ℤ) : ℚ) ≤ 19999 := by push_cast; linarith
  have h3 : (2 * f : ℤ) ≤ 19999 := by exact_mod_cast h2
  omega

lemma pyRound2_nonneg (x : ℚ) (hx : 0 ≤ x) : 0 ≤ pyRound2 x := by
  simp only [pyRound2]
  have hy : (0 : ℚ) ≤ x * 100 := by positivity
  have hf : (0 : ℤ) ≤ ⌊x * 100⌋ := Int.floor_nonneg.mpr hy
  split_ifs with h1 h2 h3
  · exact div_nonneg (by exact_mod_cast hf) (by norm_num)
  · exact div_nonneg (by exact_mod_cast (by omega : (0:ℤ) ≤ ⌊x * 100⌋ + 1)) (by norm_num)
  · exact div_nonneg (by exact_mod_cast hf) (by norm_num)
  · exact div_nonneg (by exact_mod_cast (by omega : (0:ℤ) ≤ ⌊x * 100⌋ + 1)) (by norm_num)

lemma pyRound2_le_100 (x : ℚ) (hx : x ≤ 100) : pyRound2 x ≤ 100 := by
  simp only [pyRound2]
  have hy : x * 100 ≤ 10000 := by nlinarith
  have hfr : (⌊x * 100⌋ : ℚ) ≤ x * 100 := Int.floor_le _
  have hf : ⌊x * 100⌋ ≤ 10000 := by
    have h := Int.floor_le_floor hy
    simpa using h
  have hcast : ∀ n : ℤ, n ≤ 10000 → ((n : ℚ)) / 100 ≤ 100 := by
    intro n hn
    rw [div_le_iff₀ (by norm_num : (0:ℚ) < 100)]
    have : ((n : ℤ) : ℚ) ≤ 10000 := by exact_mod_cast hn
    linarith
  split_ifs with h1 h2 h3
  · exact hcast _ hf
  · refine hcast _ ?_
    have hle : (⌊x * 100⌋ : ℚ) ≤ 19999/2 := by linarith
    have := int_le_9999_of_cast_le _ hle
    omega
  · exact hcast _ hf
  · refine hcast _ ?_
    have htie : x * 100 - (⌊x * 100⌋ : ℚ) = 1/2 :=
      le_antisymm (not_lt.mp h2) (not_lt.mp h1)
    have hle : (⌊x * 100⌋ : ℚ) ≤ 19999/2 := by linarith
    have := int_le_9999_of_cast_le _ hle
    omega

lemma pyRound2_100 : pyRound2 100 = 100 := by
  have h1 : (100 : ℚ) * 100 = ((10000 : ℤ) : ℚ) := by norm_num
  simp only [pyRound2, h1, Int.floor_intCast]
  norm_num

lemma pyRound2_bigRatio : pyRound2 (2000000 / 20001) = 100 := by
  have hfl : ⌊(2000000 / 20001 : ℚ) * 100⌋ = 9999 := by
    rw [Int.floor_eq_iff]
    constructor
    · norm_num
    · norm_num
  simp only [pyRound2, hfl]
  rw [if_neg (by norm_num), if_pos (by norm_num)]
  norm_num

/-- The rows of the 20001-row counterexample table: distinct single-cell
rows `[0], [1], ..., [19999]` followed by a duplicate of the first. -/
def bigRows : List Row :=
  ((List.range 20000).map (fun i : ℕ => [Cell.int (i : ℤ)])) ++ [[Cell.int 0]]

/-- A table with 20001 rows and exactly one duplicate row: its worthy-data
ratio rounds to exactly 100. -/
def bigTable : Table := ⟨["a"], bigRows⟩

lemma bigRows_length : bigRows.length = 20001 := by
  rw [bigRows, List.length_append, List.length_map, List.length_range]
  rfl

lemma bigRows_dup_mask :
    duplicatedMask bigRows = List.replicate 20000 false ++ [true] := by
  have hnodup : ((List.range 20000).map (fun i : ℕ => [Cell.int (i : ℤ)])).Nodup := by
    refine List.Nodup.map ?_ (List.nodup_range 20000)
    intro a b h
    have h2 : ((a : ℤ)) = (b : ℤ) := by simpa using h
    exact_mod_cast h2
  have hmem : [Cell.int 0] ∈ (List.range 20000).map (fun i : ℕ => [Cell.int (i : ℤ)]) := by
    refine List.mem_map.mpr ⟨0, ?_, ?_⟩
    · exact List.mem_range.mpr (by norm_num)
    · norm_num
  rw [duplicatedMask, bigRows, dupMaskAux_append]
  rw [dupMaskAux_of_nodup _ [] hnodup (by simp)]
  rw [List.length_map, List.length_range]
  have hd : decide ([Cell.int 0] ∈ (List.range 20000).map (fun i : ℕ => [Cell.int (i : ℤ)])
      ∨ [Cell.int 0] ∈ ([] : List Row)) = true :=
    decide_eq_true_iff.mpr (Or.inl hmem)
  rw [hd]

lemma bigRows_duplicateCount : duplicateCount bigRows = 1 := by
  rw [duplicateCount, bigRows_dup_mask, List.count_append, List.count_replicate]
  norm_num

lemma bigRows_uniqueCount : uniqueCount bigRows = 20000 := by
  have h := uniqueCount_add_duplicateCount bigRows
  rw [bigRows_duplicateCount, bigRows_length] at h
  omega

lemma bigTable_worthyRatio : worthyRatio bigTable = 100 := by
  have h1 : uniqueCount bigTable.rows = 20000 := bigRows_uniqueCount
  have h2 : bigTable.rows.length = 20001 := bigRows_length
  rw [worthyRatio, if_pos (by rw [h2]; norm_num), h1, h2]
  have h3 : ((20000 : ℕ) : ℚ) / ((20001 : ℕ) : ℚ) * 100 = 2000000 / 20001 := by
    norm_num
  rw [h3, pyRound2_bigRatio]

/-!
## Concrete evaluations on the scenario tables
-/

lemma worthyRatio_tableA : worthyRatio tableA = 6667/100 := by
  have h1 : uniqueCount tableA.rows = 2 := by decide
  have h2 : tableA.rows.length = 3 := by decide
  rw [worthyRatio, if_pos (by rw [h2]; norm_num), h1, h2]
  have h3 : ((2:ℕ):ℚ)/((3:ℕ):ℚ)*100 = (2/3)*100 := by norm_num
  rw [h3]
  have hfl : ⌊((2/3:ℚ)*100)*100⌋ = 6666 := by
    rw [Int.floor_eq_iff]
    constructor <;> norm_num
  simp only [pyRound2, hfl]
  rw [if_neg (by norm_num), if_pos (by norm_num)]
  norm_num

set_option maxHeartbeats 2000000 in
lemma outlierCensus_tableA : outlierCensus tableA = [] := by
  norm_num [outlierCensus, outlierEntry, colQ1, colQ3, colCells, tableA, quantileLinear,
    sortRat, insertSorted, nonNullVals, nonNullCells, Cell.isNull, Cell.numVal,
    isNumericCol, Cell.isNum, outlierCountCol, List.foldr, List.getD, List.countP,
    List.countP.go, List.filterMap_cons, List.filterMap_nil]

lemma colQ1_tableB : colQ1 (colCells tableB "x") = 11 := by
  norm_num [colQ1, colCells, tableB, quantileLinear, sortRat, insertSorted, nonNullVals,
    nonNullCells, Cell.isNull, Cell.numVal, List.foldr, List.getD]

lemma colQ3_tableB : colQ3 (colCells tableB "x") = 13 := by
  norm_num [colQ3, colCells, tableB, quantileLinear, sortRat, insertSorted, nonNullVals,
    nonNullCells, Cell.isNull, Cell.numVal, List.foldr, List.getD]
  simp

lemma outlierCensus_tableB : outlierCensus tableB = [("x", 1)] := by
  norm_num [outlierCensus, outlierEntry, colQ1, colQ3, colCells, tableB, quantileLinear,
    sortRat, insertSorted, nonNullVals, nonNullCells, Cell.isNull, Cell.numVal,
    isNumericCol, Cell.isNum, outlierCountCol, List.foldr, List.getD, List.countP,
    List.countP.go, List.filterMap_cons, List.filterMap_nil]
  simp
  norm_num [List.countP, List.countP.go]

lemma iqr_tableE : colQ3 (colCells tableE "y") - colQ1 (colCells tableE "y") = 3/2 := by
  norm_num [colQ1, colQ3, colCells, tableE, quantileLinear, sortRat, insertSorted,
    nonNullVals, nonNullCells, Cell.isNull, Cell.numVal, List.foldr, List.getD]
  simp
  norm_num

lemma outlierCensus_tableE : outlierCensus tableE = [] := by
  norm_num [outlierCensus, outlierEntry, colQ1, colQ3, colCells, tableE, quantileLinear,
    sortRat, insertSorted, nonNullVals, nonNullCells, Cell.isNull, Cell.numVal,
    isNumericCol, Cell.isNum, outlierCountCol, List.foldr, List.getD, List.countP,
    List.countP.go, List.filterMap_cons, List.filterMap_nil]
  simp
  norm_num [List.countP, List.countP.go]

/-!
## Claim theorems
-/

/-- C1: End-to-end on Scenario A: for the table with columns a,b and rows
[1,2], [1,2], [3,null], the analysis reports duplicate count 1 with flagged
row index 1, missing-column list [b] with 1 missing cell, unique row count 2,
worthy data ratio 66.67, and the cleaned table (drop duplicate rows keeping
the first occurrence, then drop rows containing any null) is exactly the
single row [a=1,b=2]. -/
theorem scenarioA_end_to_end :
    analyzeFileRun (.ok tableA) "data" true ctxOk =
      (.ok { totalRows := 3, totalCols := 2,
             missingCols := ["b"], missingCounts := [("b", 1)],
             duplicateCount := 1, duplicateIndices := [1],
             mixedTypes := [], outliers := [],
             uniqueRows := 2, worthyRatio := 6667/100,
             cleanedTable := ⟨["a", "b"], [[.int 1, .int 2]]⟩,
             cleanedRows := 1,
             cleanedFilePath := "out/data_cleaned.csv",
             reportPath := "out/clean_report_data_T.txt",
             warnings := [] },
       ["out/data_cleaned.csv", "out/clean_report_data_T.txt"]) := by
  have hmc : missingCols tableA = ["b"] := by decide
  have hmcc : missingCounts tableA = [("b", 1)] := by decide
  have hdc : duplicateCount tableA.rows = 1 := by decide
  have hdi : duplicateIndices tableA.rows = [1] := by decide
  have hmt : mixedTypes tableA = [] := by decide
  have huc : uniqueCount tableA.rows = 2 := by decide
  have hct : cleanTable tableA = ⟨["a", "b"], [[.int 1, .int 2]]⟩ := by decide
  have hne : ¬ (tableA.rows = []) := by decide
  have hlen3 : tableA.rows.length = 3 := by decide
  have hhl : tableA.header.length = 2 := by decide
  simp [analyzeFileRun, ctxOk, hmc, hmcc, hdc, hdi, hmt, huc, hct, hne, hlen3, hhl,
    worthyRatio_tableA, outlierCensus_tableA]

/-- C2: for every loaded table, the cleaned table's row count is at most the
unique-row count, which is at most the total row count. -/
theorem cleaner_counts_monotone (t : Table) :
    (cleanTable t).rows.length ≤ uniqueCount t.rows ∧
      uniqueCount t.rows ≤ t.rows.length := by
  constructor
  · exact List.length_filter_le _ (dropDuplicates t.rows)
  · exact uniqueCount_le_length t.rows

/-- C3: the duplicate census flags exactly the rows preceded by an identical
earlier row (null equal to null), the first occurrence is never flagged, the
flagged count equals total minus unique row count, and the reported indices
are the original row indices in ascending order. -/
theorem duplicate_census_correct (rows : List Row) :
    (∀ i, i < rows.length →
      ((duplicatedMask rows).getD i false = true ↔
        ∃ j, j < i ∧ rows.getD j [] = rows.getD i [])) ∧
    (∀ i, i < rows.length → (∀ j, j < i → rows.getD j [] ≠ rows.getD i []) →
      (duplicatedMask rows).getD i false = false) ∧
    duplicateCount rows = rows.length - uniqueCount rows ∧
    List.Sorted (· < ·) (duplicateIndices rows) ∧
    (∀ i, i ∈ duplicateIndices rows ↔
      (i < rows.length ∧ (duplicatedMask rows).getD i false = true)) := by
  have hmask : ∀ i, i < rows.length →
      ((duplicatedMask rows).getD i false = true ↔
        ∃ j, j < i ∧ rows.getD j [] = rows.getD i []) := by
    intro i hi
    have h := dupMaskAux_getD rows [] i hi
    simpa using h
  refine ⟨hmask, ?_, ?_, ?_, ?_⟩
  · intro i hi hfirst
    rw [Bool.eq_false_iff]
    intro hmem
    rcases (hmask i hi).mp hmem with ⟨j, hj, he⟩
    exact hfirst j hj he
  · have h := uniqueCount_add_duplicateCount rows
    omega
  · exact duplicateIndicesAux_sorted rows [] 0
  · intro i; exact duplicateIndices_mem rows i

/-- Witness for C3 at Scenario A's rows and index 1. -/
theorem duplicate_census_correct_witness :
    (((duplicatedMask tableA.rows).getD 1 false = true) ↔
      ∃ j, j < 1 ∧ tableA.rows.getD j [] = tableA.rows.getD 1 []) ∧
    duplicateCount tableA.rows = tableA.rows.length - uniqueCount tableA.rows := by
  have h := duplicate_census_correct tableA.rows
  exact ⟨h.1 1 (by decide), h.2.2.1⟩

/-- C4 counterexample: a table of 20001 rows whose rows are pairwise distinct
except for one duplicate of the first row has a positive duplicate count, yet
its worthy-data ratio rounds to exactly 100, refuting the claim that the
ratio equals 100 only when the table has no duplicate rows. -/
theorem worthyRatio_100_with_duplicate :
    worthyRatio bigTable = 100 ∧ 0 < duplicateCount bigTable.rows := by
  refine ⟨bigTable_worthyRatio, ?_⟩
  show 0 < duplicateCount bigRows
  rw [bigRows_duplicateCount]
  norm_num

/-- C4 (amended): the worthy-data ratio equals unique-row-count divided by
total-row-count times 100 rounded to 2 decimal places; it lies in [0, 100]
for every non-empty table, equals 100 if the table has no duplicate rows
(but not only if: with at least 20001 rows and exactly one duplicate the
rounding can also yield 100), and is reported as 0 when the total row count
is 0 without ever dividing by zero. -/
theorem worthy_ratio_bounds (t : Table) :
    (0 < t.rows.length →
      worthyRatio t
        = pyRound2 (((uniqueCount t.rows : ℚ) / (t.rows.length : ℚ)) * 100)) ∧
    (0 < t.rows.length → 0 ≤ worthyRatio t ∧ worthyRatio t ≤ 100) ∧
    (0 < t.rows.length → duplicateCount t.rows = 0 → worthyRatio t = 100) ∧
    (t.rows.length = 0 → worthyRatio t = 0) := by
  refine ⟨?_, ?_, ?_, ?_⟩
  · intro h; rw [worthyRatio, if_pos h]
  · intro h
    have hle : uniqueCount t.rows ≤ t.rows.length := uniqueCount_le_length t.rows
    have hpos : (0:ℚ) < (t.rows.length : ℚ) := by exact_mod_cast h
    have hx0 : (0:ℚ) ≤ ((uniqueCount t.rows : ℚ) / (t.rows.length : ℚ)) * 100 := by
      positivity
    have hx1 : ((uniqueCount t.rows : ℚ) / (t.rows.length : ℚ)) * 100 ≤ 100 := by
      have hdiv : (uniqueCount t.rows : ℚ) / (t.rows.length : ℚ) ≤ 1 := by
        rw [div_le_one hpos]; exact_mod_cast hle
      nlinarith
    rw [worthyRatio, if_pos h]
    exact ⟨pyRound2_nonneg _ hx0, pyRound2_le_100 _ hx1⟩
  · intro h hdup
    have hu : uniqueCount t.rows = t.rows.length := by
      have := uniqueCount_add_duplicateCount t.rows; omega
    rw [worthyRatio, if_pos h, hu]
    have hne : ((t.rows.length : ℚ)) ≠ 0 := by
      have : (0:ℚ) < (t.rows.length : ℚ) := by exact_mod_cast h
      exact ne_of_gt this
    rw [div_self hne, one_mul, pyRound2_100]
  · intro h; rw [worthyRatio, if_neg (by omega)]

/-- Witness for C4's amended bounds at Scenario A's table. -/
theorem worthy_ratio_bounds_witness :
    0 < tableA.rows.length ∧
      (0 ≤ worthyRatio tableA ∧ worthyRatio tableA ≤ 100) :=
  ⟨by decide, (worthy_ratio_bounds tableA).2.1 (by decide)⟩

/-- C5: the outlier census computes Q1 and Q3 by linear-interpolation
quantiles over the non-null values only and flags cells outside
[Q1 - 1.5*IQR, Q3 + 1.5*IQR] only when IQR > 0 (a column with IQR = 0 never
appears); in particular the column [10,12,11,13,500] yields Q1 = 11,
Q3 = 13 and outlier count 1. -/
theorem outlier_census_correct :
    (colQ1 (colCells tableB "x") = 11 ∧ colQ3 (colCells tableB "x") = 13 ∧
      outlierCensus tableB = [("x", 1)]) ∧
    (∀ (t : Table) (c : String),
      colQ3 (colCells t c) - colQ1 (colCells t c) = 0 →
      ∀ n, (c, n) ∉ outlierCensus t) ∧
    (∀ (t : Table) (c : String) (n : ℕ), (c, n) ∈ outlierCensus t →
      isNumericCol (colCells t c) = true ∧
      0 < colQ3 (colCells t c) - colQ1 (colCells t c) ∧
      n = outlierCountCol (colCells t c)
        (colQ1 (colCells t c) - 3/2 * (colQ3 (colCells t c) - colQ1 (colCells t c)))
        (colQ3 (colCells t c) + 3/2 * (colQ3 (colCells t c) - colQ1 (colCells t c)))) := by
  refine ⟨⟨colQ1_tableB, colQ3_tableB, outlierCensus_tableB⟩, ?_, ?_⟩
  · intro t c hiqr n hmem
    have h := outlierCensus_mem t c n hmem
    rw [hiqr] at h
    exact absurd h.2.1 (by norm_num)
  · intro t c n hmem
    have h := outlierCensus_mem t c n hmem
    exact ⟨h.1, h.2.1, h.2.2.2⟩

/-- Witness for C5's IQR = 0 short-circuit at Scenario A's column b. -/
theorem outlier_census_correct_witness :
    colQ3 (colCells tableA "b") - colQ1 (colCells tableA "b") = 0 ∧
      ("b", 1) ∉ outlierCensus tableA := by
  have hiqr : colQ3 (colCells tableA "b") - colQ1 (colCells tableA "b") = 0 := by
    norm_num [colQ1, colQ3, colCells, tableA, quantileLinear, sortRat, insertSorted,
      nonNullVals, nonNullCells, Cell.isNull, Cell.numVal, List.foldr, List.getD]
  exact ⟨hiqr, outlier_census_correct.2.1 tableA "b" hiqr 1⟩

/-- C6: an input that is empty or has a header row but zero data rows makes
the run fail with the EmptyInput error, and no output file is written. -/
theorem empty_input_fails_no_writes (header : List String) (name : String)
    (ac : Bool) (ctx : Ctx) :
    analyzeFileRun (.ok ⟨header, []⟩) name ac ctx = (.error .emptyInput, []) ∧
    analyzeFileRun (.error .emptyInput) name ac ctx = (.error .emptyInput, []) := by
  constructor
  · simp [analyzeFileRun]
  · rfl

/-- Context whose report write fails while the cleaned-table write succeeds. -/
def ctxReportFail : Ctx := ⟨"T", "out", true, false⟩

/-- C7 counterexample: in a run where only the report write fails, the run
warns and still succeeds, but the report path it reports and returns is the
real path, identical to a fully successful run's, not a placeholder string -
refuting the claim that a placeholder appears where the failed artifact's
path would appear. -/
theorem report_write_failure_keeps_path :
    runOk (analyzeFileRun (.ok tableA) "data" true ctxReportFail).1 = true ∧
    outWarnings (analyzeFileRun (.ok tableA) "data" true ctxReportFail).1
      = ["Warning: Could not save report file"] ∧
    outReportPath (analyzeFileRun (.ok tableA) "data" true ctxReportFail).1
      = "out/clean_report_data_T.txt" ∧
    outReportPath (analyzeFileRun (.ok tableA) "data" true ctxReportFail).1
      = outReportPath (analyzeFileRun (.ok tableA) "data" true ctxOk).1 := by
  decide

/-- C7 (amended): a failed write is reported as a warning and the run still
returns successfully; a failed cleaned-table write replaces that artifact's
shown path with a placeholder string, while a failed report write leaves the
report path unchanged; and a failure of one write does not prevent the other
write from being attempted. -/
theorem write_failure_recovery (t : Table) (name : String) (ctx : Ctx)
    (h : t.rows ≠ []) :
    runOk (analyzeFileRun (.ok t) name true ctx).1 = true ∧
    (ctx.cleanedWriteOk = false →
      0 < outCleanedRows (analyzeFileRun (.ok t) name true ctx).1 →
      outCleanedPath (analyzeFileRun (.ok t) name true ctx).1
          = "Not saved (error occurred)" ∧
        "Warning: Could not save cleaned file"
          ∈ outWarnings (analyzeFileRun (.ok t) name true ctx).1) ∧
    (ctx.reportWriteOk = false →
      "Warning: Could not save report file"
        ∈ outWarnings (analyzeFileRun (.ok t) name true ctx).1) ∧
    outReportPath (analyzeFileRun (.ok t) name true ctx).1
      ∈ (analyzeFileRun (.ok t) name true ctx).2 ∧
    (0 < outCleanedRows (analyzeFileRun (.ok t) name true ctx).1 →
      (ctx.outputDir ++ "/" ++ name ++ "_cleaned.csv")
        ∈ (analyzeFileRun (.ok t) name true ctx).2) := by
  have hlen : ¬ (t.rows.length = 0) := by
    intro h0
    exact h (List.length_eq_zero.mp h0)
  rcases ctx with ⟨ts, od, cwo, rwo⟩
  by_cases hcr : (cleanTable t).rows.length = 0
  · cases cwo <;> cases rwo <;>
      simp [analyzeFileRun, hlen, hcr, runOk, outCleanedRows, outCleanedPath,
        outWarnings, outReportPath]
  · have hpos : 0 < (cleanTable t).rows.length := Nat.pos_of_ne_zero hcr
    cases cwo <;> cases rwo <;>
      simp [analyzeFileRun, hlen, hcr, hpos, runOk, outCleanedRows, outCleanedPath,
        outWarnings, outReportPath]

/-- Witness for C7's amended recovery at Scenario A with both writes failing. -/
theorem write_failure_recovery_witness :
    tableA.rows ≠ [] ∧
      runOk (analyzeFileRun (.ok tableA) "data" true ⟨"T", "out", false, false⟩).1
        = true :=
  ⟨by decide,
   (write_failure_recovery tableA "data" ⟨"T", "out", false, false⟩ (by decide)).1⟩

/-- C8: the mixed-type census flags a column if and only if its non-null
cells contain more than one runtime value kind; a column with a single value
type and no nulls is never listed; and the column holding "1" (string),
2 (integer), "3" (string) is flagged with both kind names listed once each. -/
theorem mixed_census_correct :
    (∀ (t : Table) (c : String),
      (∃ ks, (c, ks) ∈ mixedTypes t) ↔
        c ∈ t.header ∧
          1 < ((nonNullCells (colCells t c)).map Cell.kindName).toFinset.card) ∧
    (∀ (t : Table) (c : String) (k : String),
      (∀ x ∈ colCells t c, x.isNull = false ∧ x.kindName = k) →
      ∀ ks, (c, ks) ∉ mixedTypes t) ∧
    mixedTypes tableD = [("d", ["str", "int"])] ∧
    mixedTypes tableA = [] := by
  have hflag : ∀ (t : Table) (c : String),
      (∃ ks, (c, ks) ∈ mixedTypes t) ↔
        c ∈ t.header ∧
          1 < ((nonNullCells (colCells t c)).map Cell.kindName).toFinset.card := by
    intro t c
    constructor
    · rintro ⟨ks, hmem⟩
      rcases List.mem_filterMap.mp hmem with ⟨a, ha, he⟩
      have hac : a = c := mixedEntry_fst t a c ks he
      subst hac
      exact ⟨ha, (mixedEntry_iff t a).mp ⟨ks, he⟩⟩
    · rintro ⟨hc, hcard⟩
      rcases (mixedEntry_iff t c).mpr hcard with ⟨ks, he⟩
      exact ⟨ks, List.mem_filterMap.mpr ⟨c, hc, he⟩⟩
  refine ⟨hflag, ?_, by decide, by decide⟩
  intro t c k hsingle ks hmem
  have hex : ∃ ks, (c, ks) ∈ mixedTypes t := ⟨ks, hmem⟩
  rcases (hflag t c).mp hex with ⟨hc, hcard⟩
  have hsub : ((nonNullCells (colCells t c)).map Cell.kindName).toFinset
      ⊆ {k} := by
    intro y hy
    rcases List.mem_map.mp (List.mem_toFinset.mp hy) with ⟨x, hx, rfl⟩
    have hx₂ : x ∈ colCells t c := List.mem_of_mem_filter hx
    simp [(hsingle x hx₂).2]
  have hle := Finset.card_le_card hsub
  rw [Finset.card_singleton] at hle
  omega

/-- Witness for C8's single-type clause at Scenario A's column a. -/
theorem mixed_census_correct_witness :
    (∀ x ∈ colCells tableA "a", x.isNull = false ∧ x.kindName = "int") ∧
      ("a", ["int"]) ∉ mixedTypes tableA := by
  have hs : ∀ x ∈ colCells tableA "a", x.isNull = false ∧ x.kindName = "int" := by
    decide
  exact ⟨hs, mixed_census_correct.2.1 tableA "a" "int" hs ["int"]⟩

/-- C9: the cleaning step is deterministic: the cleaned table's content
depends only on the loaded input, so two runs of the pipeline on the same
input under different ambient contexts (timestamp, output directory, write
outcomes) produce cleaned tables with identical row content. -/
theorem cleaning_deterministic (load : Except RunError Table) (name : String)
    (ac : Bool) (ctx1 ctx2 : Ctx) :
    outCleanedTable (analyzeFileRun load name ac ctx1).1
      = outCleanedTable (analyzeFileRun load name ac ctx2).1 ∧
    outCleanedRows (analyzeFileRun load name ac ctx1).1
      = outCleanedRows (analyzeFileRun load name ac ctx2).1 := by
  cases load with
  | error e => simp [analyzeFileRun]
  | ok df =>
    by_cases h : df.rows.length = 0
    · simp [analyzeFileRun, h]
    · simp [analyzeFileRun, h, outCleanedTable, outCleanedRows]

/-- C10: the outlier census includes a column only when its outlier count is
at least 1; a numeric column with IQR > 0 whose values all lie within the
bounds (such as [1,2,3,4]) is omitted from the census rather than reported
with a zero count. -/
theorem outlier_census_positive_only :
    (∀ (t : Table) (c : String) (n : ℕ), (c, n) ∈ outlierCensus t → 1 ≤ n) ∧
    0 < colQ3 (colCells tableE "y") - colQ1 (colCells tableE "y") ∧
    outlierCensus tableE = [] := by
  refine ⟨?_, ?_, outlierCensus_tableE⟩
  · intro t c n hmem
    exact (outlierCensus_mem t c n hmem).2.2.1
  · rw [iqr_tableE]; norm_num

/-- Witness for C10 at Scenario B's census entry. -/
theorem outlier_census_positive_only_witness :
    ("x", 1) ∈ outlierCensus tableB ∧ 1 ≤ 1 := by
  have hmem : ("x", 1) ∈ outlierCensus tableB := by
    rw [outlierCensus_tableB]
    exact List.mem_singleton.mpr rfl
  exact ⟨hmem, outlier_census_positive_only.1 tableB "x" 1 hmem⟩

end MicroCleaner


